import Mathlib

/-!
Shallow embedding of the docker-app-store backend:
the `DockerRegistryClient` (catalog pagination, repository info, tags,
manifest and config-blob fetches with the unauthenticated-then-token-retry
policy) and the `AppRepository.findAll` aggregation pipeline that folds
upstream responses into `App` records, as well as the HTTP controller.

Network interaction is modelled by an `Env` of upstream responses; each
client operation is a pure function of the environment.  JavaScript
truthiness on strings (`x || y` falls through on `undefined`, `null` and
`""`) is modelled by `jsOrS` over `Option String`.  A thrown exception is
modelled as `Except.error`; a JS `try`/`catch` is a `match` on the
`Except` value.
-/

namespace DockerAppStore

/-- The hardcoded Docker Hub namespace of the client. -/
def DOCKER_HUB_NAMESPACE : String := "abdelrahmanelbadawy1"

/-- JS `a || b` for an optional string `a`: falls through when the field is
absent (`none`) or empty (`""`), both falsy in JS. -/
def jsOrS : Option String → String → String
  | some s, d => if s = "" then d else s
  | none, d => d

/-- Lookup of `labels[key]` in a JS object modelled as an association list. -/
def jsLookup (labels : List (String × String)) (key : String) : Option String :=
  (labels.find? (fun p => p.1 = key)).map (·.2)

/-- An upstream HTTP response: payload on success, or a failure carrying the
HTTP status code when the failure has one (`error.response?.status`). -/
inductive HttpResp (α : Type) where
  | ok : α → HttpResp α
  | err : Option Nat → HttpResp α
  deriving DecidableEq, Repr

/-- Errors thrown by the client / value objects. -/
inductive RegError where
  /-- A transport or HTTP failure, with the status when present. -/
  | http : Option Nat → RegError
  /-- `getManifest`'s 404 error: names the missing tag and the available tags. -/
  | tagNotFound : String → List String → RegError
  /-- The token service answered without a token field. -/
  | noToken : RegError
  /-- `AppLocation`'s constructor rejected a blank location. -/
  | emptyLocation : RegError
  deriving DecidableEq, Repr

/-- Equality of modelled call results is decidable componentwise. -/
instance {ε α : Type} [DecidableEq ε] [DecidableEq α] : DecidableEq (Except ε α) := fun x y =>
  match x, y with
  | .ok a, .ok b =>
    if h : a = b then isTrue (by rw [h]) else isFalse (fun hh => h (Except.ok.inj hh))
  | .ok _, .error _ => isFalse (fun hh => Except.noConfusion hh)
  | .error _, .ok _ => isFalse (fun hh => Except.noConfusion hh)
  | .error e, .error f =>
    if h : e = f then isTrue (by rw [h]) else isFalse (fun hh => h (Except.error.inj hh))

/-- One page of the Docker Hub catalog listing: the repository names in
`results` and whether the response carried a non-null `next` URL. -/
structure CatalogPage where
  results : List String
  next : Bool
  deriving DecidableEq, Repr

/-- The raw JSON of the repository-info endpoint (the fields the pipeline
reads; absent fields are `none`). -/
structure RepoData where
  name : Option String
  description : Option String
  star_count : Option Nat
  pull_count : Option Nat
  last_updated : Option String
  is_private : Option Bool
  deriving DecidableEq, Repr

/-- The `config` reference inside a manifest document; `digest` may be
absent. -/
structure ConfigRef where
  digest : Option String
  deriving DecidableEq, Repr

/-- A manifest document; its `config` field may be absent. -/
structure ManifestDoc where
  config : Option ConfigRef
  deriving DecidableEq, Repr

/-- The inner `config` object of a config blob; `Labels` may be absent. -/
structure ConfigInner where
  Labels : Option (List (String × String))
  deriving DecidableEq, Repr

/-- A config blob; its inner `config` object may be absent. -/
structure ConfigBlob where
  config : Option ConfigInner
  deriving DecidableEq, Repr

/-- The upstream world: the response every endpoint would give.  The
catalog listing is the finite sequence of page responses the server
returns to the successive page fetches; the per-repository endpoints are
keyed by repository name (and tag / digest / bearer credential where the
request carries one, the credential distinguishing the unauthenticated
attempt from the token retry). -/
structure Env where
  catalogPages : List (HttpResp CatalogPage)
  repoInfoResp : String → HttpResp RepoData
  tagsResp : String → HttpResp (List String)
  tokenResp : String → HttpResp (Option String)
  manifestResp : String → String → Option String → HttpResp (Option ManifestDoc)
  configResp : String → String → Option String → HttpResp (Option ConfigBlob)

/-- The requests a client operation issues, in order (used to state the
fetch-policy claims: which attempts are made, with which credential). -/
inductive ReqEvent where
  | manifestReq : String → String → Option String → ReqEvent
  | tokenReq : String → ReqEvent
  | tagsReq : String → ReqEvent
  deriving DecidableEq, Repr

/-- Whether a request event is a manifest request (used to count the
attempts an operation makes). -/
def isManifestEv : ReqEvent → Bool
  | .manifestReq _ _ _ => true
  | _ => false

/-- `DockerRegistryClient.getRepositoryTags`: one tags request; a 404 and
any other failure both yield the empty list (the method never throws). -/
def getRepositoryTags (env : Env) (repo : String) : List String × List ReqEvent :=
  (match env.tagsResp repo with
    | .ok l => l
    | .err _ => [],
   [.tagsReq repo])

/-- `DockerRegistryClient.getDockerHubAuthToken`: requests a pull token; a
response without a (truthy) token field throws, as does a failed request. -/
def getDockerHubAuthToken (env : Env) (repo : String) :
    Except RegError String × List ReqEvent :=
  (match env.tokenResp repo with
    | .ok (some t) => if t = "" then .error .noToken else .ok t
    | .ok none => .error .noToken
    | .err s => .error (.http s),
   [.tokenReq repo])

/-- The body of `DockerRegistryClient.getManifest` once a tag is known:
try unauthenticated; on 401 fetch a token and retry once with it; on 404
throw a tag-not-found error listing the available tags; any other failure
propagates. -/
def fetchManifest (env : Env) (repo tag : String) :
    Except RegError (Option ManifestDoc) × List ReqEvent :=
  match env.manifestResp repo tag none with
  | .ok d => (.ok d, [.manifestReq repo tag none])
  | .err s =>
    if s = some 401 then
      match getDockerHubAuthToken env repo with
      | (.ok tok, evs) =>
        match env.manifestResp repo tag (some tok) with
        | .ok d => (.ok d, .manifestReq repo tag none :: evs ++ [.manifestReq repo tag (some tok)])
        | .err s2 => (.error (.http s2), .manifestReq repo tag none :: evs ++ [.manifestReq repo tag (some tok)])
      | (.error e, evs) => (.error e, .manifestReq repo tag none :: evs)
    else if s = some 404 then
      match getRepositoryTags env repo with
      | (avail, evs) => (.error (.tagNotFound tag avail), .manifestReq repo tag none :: evs)
    else
      (.error (.http s), [.manifestReq repo tag none])

/-- `getManifest` when no (truthy) tag argument was given: resolve the
tags; with none, resolve `null` without any manifest request; otherwise
prefer `"latest"`, else the first tag in listing order. -/
def getManifestNoTag (env : Env) (repo : String) :
    Except RegError (Option ManifestDoc) × List ReqEvent :=
  match getRepositoryTags env repo with
  | (tags, evs) =>
    match tags with
    | [] => (.ok none, evs)
    | t0 :: rest =>
      let tag := if (t0 :: rest).contains "latest" then "latest" else t0
      match fetchManifest env repo tag with
      | (r, evs2) => (r, evs ++ evs2)

/-- `DockerRegistryClient.getManifest(repo, tag?)`.  A missing or empty
tag argument (both falsy) triggers tag resolution. -/
def getManifest (env : Env) (repo : String) (tagArg : Option String) :
    Except RegError (Option ManifestDoc) × List ReqEvent :=
  match tagArg with
  | none => getManifestNoTag env repo
  | some t => if t = "" then getManifestNoTag env repo else fetchManifest env repo t

/-- `DockerRegistryClient.getConfig`: try unauthenticated; on 401 fetch a
token and retry once; any other failure propagates as a hard error. -/
def getConfig (env : Env) (repo digest : String) :
    Except RegError (Option ConfigBlob) :=
  match env.configResp repo digest none with
  | .ok d => .ok d
  | .err s =>
    if s = some 401 then
      match (getDockerHubAuthToken env repo).1 with
      | .ok tok =>
        match env.configResp repo digest (some tok) with
        | .ok d => .ok d
        | .err s2 => .error (.http s2)
      | .error e => .error e
    else .error (.http s)

/-- Summary metadata assembled by `getRepositoryInfo`. -/
structure RepositoryInfo where
  name : Option String
  description : Option String
  star_count : Option Nat
  pull_count : Option Nat
  last_updated : Option String
  is_private : Option Bool
  has_tags : Bool
  available_tags : List String
  deriving DecidableEq, Repr

/-- `DockerRegistryClient.getRepositoryInfo`: a 404 yields `null`, any
other failure also yields `null`; on success the tags are fetched (never
throwing) and `has_tags` / `available_tags` recorded. -/
def getRepositoryInfo (env : Env) (repo : String) : Option RepositoryInfo :=
  match env.repoInfoResp repo with
  | .err _ => none
  | .ok data =>
    let tags := (getRepositoryTags env repo).1
    some { name := data.name, description := data.description,
           star_count := data.star_count, pull_count := data.pull_count,
           last_updated := data.last_updated, is_private := data.is_private,
           has_tags := decide (tags.length > 0), available_tags := tags }

/-- `DockerRegistryClient.getRepositoriesFromDockerHub`'s page loop over
the server's successive page responses: a failed page fetch throws; a page
with a null `next` ends the loop; running past the provided responses
models a fetch that never answers and is treated as a failure. -/
def fetchCatalog : List (HttpResp CatalogPage) → Except RegError (List String)
  | [] => .error (.http none)
  | r :: rest =>
    match r with
    | .err s => .error (.http s)
    | .ok page =>
      if page.next then
        match fetchCatalog rest with
        | .ok names => .ok (page.results ++ names)
        | .error e => .error e
      else .ok page.results

/-- `getRepositoriesFromDockerHub`: accumulate all pages, prefix each name
with the namespace; on any page failure return the empty list. -/
def getRepositoriesFromDockerHub (env : Env) : List String :=
  match fetchCatalog env.catalogPages with
  | .ok names => names.map (fun n => DOCKER_HUB_NAMESPACE ++ "/" ++ n)
  | .error _ => []

/-- The value object wrapping a repository location. -/
structure AppLocation where
  value : String
  deriving DecidableEq, Repr

/-- `AppLocation.create`: throws when the location is empty or consists
only of whitespace (`!location || location.trim().length === 0`). -/
def AppLocation.create (location : String) : Except RegError AppLocation :=
  if location.isEmpty || location.data.all Char.isWhitespace then
    .error .emptyLocation
  else .ok ⟨location⟩

/-- The `App` domain entity. -/
structure App where
  name : String
  location : AppLocation
  description : String
  pictureUrl : String
  deriving DecidableEq, Repr

/-- The placeholder description used by every fallback of `findAll`. -/
def NO_DESCRIPTION : String := "No description provided."

/-- The placeholder picture URL used by every fallback of `findAll`. -/
def PLACEHOLDER_URL : String := "https://via.placeholder.com/150"

/-- The RepositoryInfo-only record `findAll` builds in its basic-info
fallbacks (no tags, missing manifest, missing config digest, absent
config): name and description fall back from `RepositoryInfo`, the
picture is the placeholder. -/
def basicApp (repoInfo : RepositoryInfo) (repoName : String) :
    Except RegError (Option App) :=
  match AppLocation.create repoName with
  | .error e => .error e
  | .ok loc =>
    .ok (some { name := jsOrS repoInfo.name repoName,
                location := loc,
                description := jsOrS repoInfo.description NO_DESCRIPTION,
                pictureUrl := PLACEHOLDER_URL })

/-- The body of `findAll`'s per-repository async closure before its
`catch`: info → tags → manifest → config → labels, with the basic-info
fallback at each soft absence; `.ok none` is the `return null` for an
absent repository, `.error` a thrown exception. -/
def resolveSteps (env : Env) (repoName : String) :
    Except RegError (Option App) :=
  match getRepositoryInfo env repoName with
  | none => .ok none
  | some repoInfo =>
    if !repoInfo.has_tags || repoInfo.available_tags.isEmpty then
      basicApp repoInfo repoName
    else
      match (getManifest env repoName none).1 with
      | .error e => .error e
      | .ok mOpt =>
        match mOpt with
        | none => basicApp repoInfo repoName
        | some manifest =>
          match manifest.config with
          | none => basicApp repoInfo repoName
          | some cfg =>
            match cfg.digest with
            | none => basicApp repoInfo repoName
            | some digest =>
              if digest = "" then basicApp repoInfo repoName
              else
                match getConfig env repoName digest with
                | .error e => .error e
                | .ok cOpt =>
                  match cOpt with
                  | none => basicApp repoInfo repoName
                  | some config =>
                    let labels :=
                      (config.config.bind (fun inner => inner.Labels)).getD []
                    match AppLocation.create repoName with
                    | .error e => .error e
                    | .ok loc =>
                      .ok (some
                        { name := jsOrS (jsLookup labels "org.opencontainers.image.title")
                            (jsOrS repoInfo.name repoName),
                          location := loc,
                          description := jsOrS (jsLookup labels "org.opencontainers.image.description")
                            (jsOrS repoInfo.description NO_DESCRIPTION),
                          pictureUrl := jsOrS (jsLookup labels "com.app-store.picture-url")
                            PLACEHOLDER_URL })

/-- The minimal last-resort record built in the per-repository `catch`. -/
def minimalApp (repoName : String) (loc : AppLocation) : App :=
  { name := repoName, location := loc,
    description := "Repository information unavailable.",
    pictureUrl := PLACEHOLDER_URL }

/-- The whole per-repository closure of `findAll`, `catch` included: any
exception from the steps falls back to the minimal record, and to `null`
only when even `AppLocation.create` on the raw name throws. -/
def perRepo (env : Env) (repoName : String) : Except RegError (Option App) :=
  match resolveSteps env repoName with
  | .ok r => .ok r
  | .error _ =>
    match AppLocation.create repoName with
    | .ok loc => .ok (some (minimalApp repoName loc))
    | .error _ => .ok none

/-- The value a single repository's promise resolves with. -/
def resolveOne (env : Env) (repoName : String) : Option App :=
  match perRepo env repoName with
  | .ok r => r
  | .error _ => none

/-- `Promise.all`: resolves with the list of values in order, rejects as
soon as any branch rejects. -/
def promiseAll {α : Type} : List (Except RegError α) → Except RegError (List α)
  | [] => .ok []
  | x :: xs =>
    match x with
    | .ok a =>
      match promiseAll xs with
      | .ok as => .ok (a :: as)
      | .error e => .error e
    | .error e => .error e

/-- `AppRepository.findAll`: list the repositories, resolve each
(`Promise.all` preserves listing order), filter out the `null`s; the outer
`catch` maps any escaped exception to the empty list. -/
def findAllE (env : Env) : Except RegError (List App) :=
  match promiseAll ((getRepositoriesFromDockerHub env).map (perRepo env)) with
  | .ok apps => .ok (apps.filterMap id)
  | .error _ => .ok []

/-- `findAll` as the list it resolves with. -/
def findAll (env : Env) : List App :=
  match findAllE env with
  | .ok apps => apps
  | .error _ => []

/-- The response DTO of the apps endpoint. -/
structure AppDTO where
  name : String
  location : String
  description : String
  pictureUrl : String
  deriving DecidableEq, Repr

/-- Map a domain `App` to its response DTO. -/
def toDTO (app : App) : AppDTO :=
  { name := app.name, location := app.location.value,
    description := app.description, pictureUrl := app.pictureUrl }

/-- Modelled from the spec: `AppService.getAllApps` (whose source file is
not in the repository snapshot) is thin plumbing that delegates to the
repository's `findAll` unchanged. -/
def AppService.getAllApps (env : Env) : Except RegError (List App) :=
  findAllE env

/-- `getAllAppsController`: awaits the service and answers 200 with the
DTO array; an escaped rejection would surface as a server error (5xx),
modelled as status 500. -/
def getAllAppsController (env : Env) : Nat × List AppDTO :=
  match AppService.getAllApps env with
  | .ok apps => (200, apps.map toDTO)
  | .error _ => (500, [])

/-- Two environments agree on one repository's endpoints: every request
the pipeline can make for that repository gets the same answer.  Used to
state that one repository's resolution is isolated from the rest of the
world. -/
def agreeOn (e1 e2 : Env) (n : String) : Prop :=
  e1.repoInfoResp n = e2.repoInfoResp n ∧
  e1.tagsResp n = e2.tagsResp n ∧
  e1.tokenResp n = e2.tokenResp n ∧
  (∀ t c, e1.manifestResp n t c = e2.manifestResp n t c) ∧
  (∀ d c, e1.configResp n d c = e2.configResp n d c)

/-! ### Concrete environments used to exercise the theorems -/

/-- A concrete repository name of the namespace-prefixed form the catalog
produces. -/
def repoA : String := DOCKER_HUB_NAMESPACE ++ "/app"

/-- An environment whose repository has info (with a name and a
description) but no tags. -/
def envNoTags : Env :=
  { catalogPages := [.ok ⟨["app"], false⟩],
    repoInfoResp := fun _ => .ok ⟨some "Nice", some "Custom description", none, none, none, none⟩,
    tagsResp := fun _ => .ok [],
    tokenResp := fun _ => .ok none,
    manifestResp := fun _ _ _ => .err none,
    configResp := fun _ _ _ => .err none }

/-- An environment where info, tags and manifest resolve but the config
blob fetch fails with a server error. -/
def envConfigErr : Env :=
  { catalogPages := [.ok ⟨["app"], false⟩],
    repoInfoResp := fun _ => .ok ⟨some "Nice", some "Desc", none, none, none, none⟩,
    tagsResp := fun _ => .ok ["latest"],
    tokenResp := fun _ => .ok (some "tok"),
    manifestResp := fun _ _ _ => .ok (some ⟨some ⟨some "sha"⟩⟩),
    configResp := fun _ _ _ => .err (some 500) }

/-- An environment where the config blob fetch resolves but with an
absent (falsy) document. -/
def envConfigAbsent : Env :=
  { catalogPages := [.ok ⟨["app"], false⟩],
    repoInfoResp := fun _ => .ok ⟨some "Nice", some "Desc", none, none, none, none⟩,
    tagsResp := fun _ => .ok ["latest"],
    tokenResp := fun _ => .ok (some "tok"),
    manifestResp := fun _ _ _ => .ok (some ⟨some ⟨some "sha"⟩⟩),
    configResp := fun _ _ _ => .ok none }

/-- An environment whose config blob carries a title label mapped to the
empty string while the repository info carries the name `"X"`. -/
def envTitleEmpty : Env :=
  { catalogPages := [.ok ⟨["app"], false⟩],
    repoInfoResp := fun _ => .ok ⟨some "X", some "Desc", none, none, none, none⟩,
    tagsResp := fun _ => .ok ["latest"],
    tokenResp := fun _ => .ok (some "tok"),
    manifestResp := fun _ _ _ => .ok (some ⟨some ⟨some "sha"⟩⟩),
    configResp := fun _ _ _ =>
      .ok (some ⟨some ⟨some [("org.opencontainers.image.title", "")]⟩⟩) }

/-- An environment resolving the full chain with all three labels set. -/
def envFullChain : Env :=
  { catalogPages := [.ok ⟨["app"], false⟩],
    repoInfoResp := fun _ => .ok ⟨some "Nice", some "Desc", none, none, none, none⟩,
    tagsResp := fun _ => .ok ["latest"],
    tokenResp := fun _ => .ok (some "tok"),
    manifestResp := fun _ _ _ => .ok (some ⟨some ⟨some "sha"⟩⟩),
    configResp := fun _ _ _ =>
      .ok (some ⟨some ⟨some
        [("org.opencontainers.image.title", "Title"),
         ("org.opencontainers.image.description", "Label description"),
         ("com.app-store.picture-url", "https://pics.example/app.png")]⟩⟩) }

/-- An environment where info and tags resolve but every manifest request
fails with a server error, so the per-repository resolution throws. -/
def envManifestServerErr : Env :=
  { catalogPages := [.ok ⟨["app"], false⟩],
    repoInfoResp := fun _ => .ok ⟨some "Nice", some "Desc", none, none, none, none⟩,
    tagsResp := fun _ => .ok ["latest"],
    tokenResp := fun _ => .ok none,
    manifestResp := fun _ _ _ => .err (some 500),
    configResp := fun _ _ _ => .err none }

/-- An environment whose only listed repository has no repository info
(404). -/
def envInfoAbsent : Env :=
  { catalogPages := [.ok ⟨["app"], false⟩],
    repoInfoResp := fun _ => .err (some 404),
    tagsResp := fun _ => .ok [],
    tokenResp := fun _ => .ok none,
    manifestResp := fun _ _ _ => .err none,
    configResp := fun _ _ _ => .err none }

/-- An environment whose per-repository endpoints all miss; used where
only the catalog behaviour matters. -/
def envCatalogOk : Env :=
  { catalogPages := [.ok ⟨["a"], true⟩, .ok ⟨["b"], false⟩],
    repoInfoResp := fun _ => .err (some 404),
    tagsResp := fun _ => .ok [],
    tokenResp := fun _ => .ok none,
    manifestResp := fun _ _ _ => .err none,
    configResp := fun _ _ _ => .err none }

/-- An environment whose second catalog page fetch fails. -/
def envCatalogErr : Env :=
  { catalogPages := [.ok ⟨["a"], true⟩, .err (some 500)],
    repoInfoResp := fun _ => .err (some 404),
    tagsResp := fun _ => .ok [],
    tokenResp := fun _ => .ok none,
    manifestResp := fun _ _ _ => .err none,
    configResp := fun _ _ _ => .err none }

/-- An environment whose unauthenticated manifest request is rejected
with 401 and whose token-bearing retry succeeds. -/
def envManifest401 : Env :=
  { catalogPages := [],
    repoInfoResp := fun _ => .err (some 404),
    tagsResp := fun _ => .ok ["latest"],
    tokenResp := fun _ => .ok (some "tok"),
    manifestResp := fun _ _ c =>
      match c with
      | none => .err (some 401)
      | some _ => .ok (some ⟨some ⟨some "sha"⟩⟩),
    configResp := fun _ _ _ => .err none }

/-- An environment whose manifest endpoint answers 404 while the tag
listing reports two tags. -/
def envManifest404 : Env :=
  { catalogPages := [],
    repoInfoResp := fun _ => .err (some 404),
    tagsResp := fun _ => .ok ["v1", "v2"],
    tokenResp := fun _ => .ok none,
    manifestResp := fun _ _ _ => .err (some 404),
    configResp := fun _ _ _ => .err none }

/-- An environment with an empty tag listing. -/
def envTagsEmpty : Env :=
  { catalogPages := [],
    repoInfoResp := fun _ => .err (some 404),
    tagsResp := fun _ => .ok [],
    tokenResp := fun _ => .ok none,
    manifestResp := fun _ _ _ => .err none,
    configResp := fun _ _ _ => .err none }

/-- An environment listing the tags `["v1", "latest"]`. -/
def envTagsLatest : Env :=
  { catalogPages := [],
    repoInfoResp := fun _ => .err (some 404),
    tagsResp := fun _ => .ok ["v1", "latest"],
    tokenResp := fun _ => .ok none,
    manifestResp := fun _ _ _ => .ok (some ⟨some ⟨some "sha"⟩⟩),
    configResp := fun _ _ _ => .err none }

/-! ### Helper lemmas -/

/-- The per-repository closure never rejects: every thrown exception is
handled by its `catch`. -/
theorem perRepo_eq_ok (env : Env) (n : String) :
    perRepo env n = .ok (resolveOne env n) := by
  unfold resolveOne perRepo
  cases resolveSteps env n with
  | ok r => rfl
  | error e =>
    cases AppLocation.create n with
    | ok loc => rfl
    | error e2 => rfl

/-- `Promise.all` over promises that all resolve resolves with the mapped
values, in order. -/
theorem promiseAll_map_ok {α β : Type} (f : α → Except RegError β) (g : α → β)
    (l : List α) (h : ∀ x ∈ l, f x = .ok (g x)) :
    promiseAll (l.map f) = .ok (l.map g) := by
  induction l with
  | nil => rfl
  | cons x xs ih =>
    have hx := h x (List.mem_cons_self x xs)
    have hxs := ih (fun y hy => h y (List.mem_cons_of_mem x hy))
    simp [promiseAll, hx, hxs]

/-- `findAll` always resolves, with one candidate record per listed name,
`null`s filtered out. -/
theorem findAllE_eq_ok (env : Env) :
    findAllE env = .ok ((getRepositoriesFromDockerHub env).filterMap (resolveOne env)) := by
  unfold findAllE
  rw [promiseAll_map_ok (perRepo env) (resolveOne env) _
    (fun n _ => perRepo_eq_ok env n)]
  simp [List.filterMap_map]

/-- `findAll` as a `filterMap` of the independent per-repository
resolution over the listing. -/
theorem findAll_eq_filterMap (env : Env) :
    findAll env = (getRepositoriesFromDockerHub env).filterMap (resolveOne env) := by
  unfold findAll
  rw [findAllE_eq_ok]

/-- A chain of successful pages, each but the last carrying a `next`
cursor, is accumulated page by page. -/
theorem fetchCatalog_chain_ok (front : List CatalogPage) (last : CatalogPage)
    (hf : ∀ p ∈ front, p.next = true) (hl : last.next = false) :
    fetchCatalog ((front ++ [last]).map .ok) =
      .ok (((front ++ [last]).map CatalogPage.results).flatten) := by
  induction front with
  | nil => simp [fetchCatalog, hl]
  | cons p ps ih =>
    have hp : p.next = true := hf p (List.mem_cons_self p ps)
    have hps := ih (fun q hq => hf q (List.mem_cons_of_mem p hq))
    simp only [List.map_append, List.map_cons, List.map_nil] at hps
    simp [fetchCatalog, hp, hps]

/-- A failed page fetch, after any chain of cursor-bearing pages, makes
the whole loop throw. -/
theorem fetchCatalog_chain_err (front : List CatalogPage) (s : Option Nat)
    (rest : List (HttpResp CatalogPage)) (hf : ∀ p ∈ front, p.next = true) :
    fetchCatalog (front.map .ok ++ .err s :: rest) = .error (.http s) := by
  induction front with
  | nil => simp [fetchCatalog]
  | cons p ps ih =>
    have hp : p.next = true := hf p (List.mem_cons_self p ps)
    have hps := ih (fun q hq => hf q (List.mem_cons_of_mem p hq))
    simp [fetchCatalog, hp, hps]

/-- `getRepositoryInfo` always records the fetched tags and sets
`has_tags` accordingly. -/
theorem getRepositoryInfo_tags_spec (env : Env) (n : String) (info : RepositoryInfo)
    (h : getRepositoryInfo env n = some info) :
    info.available_tags = (getRepositoryTags env n).1 ∧
    info.has_tags = !info.available_tags.isEmpty := by
  unfold getRepositoryInfo at h
  cases hri : env.repoInfoResp n with
  | err s => rw [hri] at h; cases h
  | ok data =>
    rw [hri] at h
    have h2 := Option.some.inj h
    rw [← h2]
    refine ⟨rfl, ?_⟩
    cases (getRepositoryTags env n).1 with
    | nil => rfl
    | cons a l => simp

/-- A successful `AppLocation.create` wraps exactly the given string. -/
theorem create_eq_ok (n : String) (loc : AppLocation)
    (h : AppLocation.create n = .ok loc) : loc = ⟨n⟩ := by
  unfold AppLocation.create at h
  by_cases hb : (n.isEmpty || n.data.all Char.isWhitespace) = true
  · rw [if_pos hb] at h; cases h
  · rw [if_neg hb] at h; exact (Except.ok.inj h).symm

/-- A namespace-prefixed name is never blank, so `AppLocation.create`
accepts it. -/
theorem create_namespaced (r : String) :
    AppLocation.create (DOCKER_HUB_NAMESPACE ++ "/" ++ r) =
      .ok ⟨DOCKER_HUB_NAMESPACE ++ "/" ++ r⟩ := by
  unfold AppLocation.create
  have hne : (DOCKER_HUB_NAMESPACE ++ "/" ++ r).isEmpty = false := by
    rw [Bool.eq_false_iff]
    intro h
    have hd := congrArg String.data ((String.isEmpty_iff _).1 h)
    simp only [show ((DOCKER_HUB_NAMESPACE ++ "/" ++ r).data =
      DOCKER_HUB_NAMESPACE.data ++ "/".data ++ r.data) from rfl] at hd
    simp [DOCKER_HUB_NAMESPACE] at hd
  have hws : ((DOCKER_HUB_NAMESPACE ++ "/" ++ r).data.all Char.isWhitespace) = false := by
    have hd : (DOCKER_HUB_NAMESPACE ++ "/" ++ r).data =
        DOCKER_HUB_NAMESPACE.data ++ "/".data ++ r.data := rfl
    rw [hd, List.all_append, List.all_append]
    have hns : DOCKER_HUB_NAMESPACE.data.all Char.isWhitespace = false := by decide
    simp [hns]
  rw [hne, hws]
  rfl

/-- Every name `getRepositoriesFromDockerHub` returns is namespace-
prefixed. -/
theorem mem_repositories_form (env : Env) (n : String)
    (h : n ∈ getRepositoriesFromDockerHub env) :
    ∃ r, n = DOCKER_HUB_NAMESPACE ++ "/" ++ r := by
  unfold getRepositoriesFromDockerHub at h
  cases hfc : fetchCatalog env.catalogPages with
  | ok names =>
    rw [hfc] at h
    obtain ⟨r, _, hr⟩ := List.mem_map.1 h
    exact ⟨r, hr.symm⟩
  | error e => rw [hfc] at h; cases h

/-- With tags reported, the no-tags branch of the resolution is not
taken. -/
theorem tags_branch_false (env : Env) (n : String) (info : RepositoryInfo)
    (hinfo : getRepositoryInfo env n = some info)
    (htags : info.available_tags ≠ []) :
    (!info.has_tags || info.available_tags.isEmpty) = false := by
  have hemp : info.available_tags.isEmpty = false := by
    cases hav : info.available_tags with
    | nil => exact absurd hav htags
    | cons a l => rfl
  have hht := (getRepositoryInfo_tags_spec env n info hinfo).2
  rw [hht, hemp]
  rfl

/-- With zero tags reported, the resolution stops at the
RepositoryInfo-only record. -/
theorem resolveSteps_no_tags (env : Env) (n : String) (info : RepositoryInfo)
    (hinfo : getRepositoryInfo env n = some info)
    (htags : info.available_tags = []) :
    resolveSteps env n = basicApp info n := by
  have hemp : info.available_tags.isEmpty = true := by rw [htags]; rfl
  unfold resolveSteps
  rw [hinfo]
  simp [hemp]

/-- Once info, tags, manifest and a truthy config digest are all at hand,
the resolution is decided by the config-blob fetch. -/
theorem resolveSteps_config_step (env : Env) (n : String) (info : RepositoryInfo)
    (m : ManifestDoc) (cfg : ConfigRef) (d : String)
    (hinfo : getRepositoryInfo env n = some info)
    (htags : info.available_tags ≠ [])
    (hm : (getManifest env n none).1 = .ok (some m))
    (hcfg : m.config = some cfg)
    (hd : cfg.digest = some d)
    (hne : d ≠ "") :
    resolveSteps env n =
      match getConfig env n d with
      | .error e => .error e
      | .ok none => basicApp info n
      | .ok (some config) =>
        match AppLocation.create n with
        | .error e => .error e
        | .ok loc =>
          .ok (some
            { name := jsOrS (jsLookup ((config.config.bind (fun i => i.Labels)).getD [])
                "org.opencontainers.image.title") (jsOrS info.name n),
              location := loc,
              description := jsOrS (jsLookup ((config.config.bind (fun i => i.Labels)).getD [])
                "org.opencontainers.image.description") (jsOrS info.description NO_DESCRIPTION),
              pictureUrl := jsOrS (jsLookup ((config.config.bind (fun i => i.Labels)).getD [])
                "com.app-store.picture-url") PLACEHOLDER_URL }) := by
  have hcond := tags_branch_false env n info hinfo htags
  unfold resolveSteps
  rw [hinfo]
  simp only [hcond, Bool.false_eq_true, if_false, hm, hcfg, hd]
  rw [if_neg hne]
  cases getConfig env n d with
  | error e => rfl
  | ok cOpt => cases cOpt with
    | none => rfl
    | some config => rfl

/-- A repository's resolution depends only on that repository's
endpoints: two environments that agree on them resolve it identically. -/
theorem resolveOne_congr (e1 e2 : Env) (n : String) (h : agreeOn e1 e2 n) :
    resolveOne e1 n = resolveOne e2 n := by
  obtain ⟨h1, h2, h3, h4, h5⟩ := h
  unfold resolveOne perRepo resolveSteps getRepositoryInfo getManifest
    getManifestNoTag fetchManifest getConfig getDockerHubAuthToken
    getRepositoryTags basicApp
  simp only [h1, h2, h3, h4, h5]

/-- A `filterMap` whose function hits on every element keeps the length. -/
theorem length_filterMap_of_isSome {α β : Type} (f : α → Option β) (l : List α)
    (h : ∀ x ∈ l, (f x).isSome) : (l.filterMap f).length = l.length := by
  induction l with
  | nil => rfl
  | cons x xs ih =>
    have hx := h x (List.mem_cons_self x xs)
    have hxs := ih (fun y hy => h y (List.mem_cons_of_mem x hy))
    cases hfx : f x with
    | none => rw [hfx] at hx; cases hx
    | some b => simp [List.filterMap_cons, hfx, hxs]

/-- The resolution steps answer `null` (omission) exactly for a
repository whose info is absent. -/
theorem resolveSteps_ok_none (env : Env) (n : String)
    (hst : resolveSteps env n = .ok none) : getRepositoryInfo env n = none := by
  cases hinfo : getRepositoryInfo env n with
  | none => rfl
  | some info =>
    exfalso
    have hbasic : ∀ (i : RepositoryInfo), ¬ basicApp i n = .ok none := by
      intro i h
      unfold basicApp at h
      cases hc : AppLocation.create n with
      | error e => rw [hc] at h; cases h
      | ok loc => rw [hc] at h; cases h
    unfold resolveSteps at hst
    repeat (first | (split at hst) | simp_all)

/-- For a well-formed name, a repository is omitted exactly when its info
is absent. -/
theorem resolveOne_none_iff (env : Env) (n : String) (loc : AppLocation)
    (hloc : AppLocation.create n = .ok loc) :
    (resolveOne env n = none ↔ getRepositoryInfo env n = none) := by
  constructor
  · intro h
    unfold resolveOne perRepo at h
    cases hst : resolveSteps env n with
    | ok r =>
      rw [hst] at h
      cases r with
      | some a => simp at h
      | none => exact resolveSteps_ok_none env n hst
    | error e =>
      rw [hst, hloc] at h
      simp at h
  · intro h
    unfold resolveOne perRepo
    have hst : resolveSteps env n = .ok none := by
      unfold resolveSteps
      rw [h]
    rw [hst]

/-! ### Claim theorems -/

/-- C3: `findAll` never propagates an error: for every environment it
resolves with a list of records, the endpoint answers 200 with the DTO
array, and when the initial listing fails it resolves with the empty
array, so the endpoint answers 200 with an empty JSON array rather than a
5xx. -/
theorem C3_findAll_never_propagates (env : Env) :
    findAllE env = .ok (findAll env) ∧
    (getAllAppsController env).1 = 200 ∧
    (getAllAppsController env).2 = (findAll env).map toDTO ∧
    (∀ e, fetchCatalog env.catalogPages = .error e →
      findAll env = [] ∧ getAllAppsController env = (200, [])) := by
  have h1 := findAllE_eq_ok env
  have hfa := findAll_eq_filterMap env
  have hctl : getAllAppsController env = (200, (findAll env).map toDTO) := by
    unfold getAllAppsController AppService.getAllApps
    rw [h1, hfa]
  refine ⟨by rw [h1, hfa], by rw [hctl], by rw [hctl], ?_⟩
  intro e he
  have hrepos : getRepositoriesFromDockerHub env = [] := by
    unfold getRepositoriesFromDockerHub
    rw [he]
  have hempty : findAll env = [] := by rw [hfa, hrepos]; rfl
  exact ⟨hempty, by rw [hctl, hempty]; rfl⟩

/-- C3 witness: with a failing catalog listing, the batch resolves with
the empty list and the endpoint answers `200 []`. -/
theorem C3_findAll_never_propagates_witness :
    findAll envCatalogErr = [] ∧ getAllAppsController envCatalogErr = (200, []) := by
  exact (C3_findAll_never_propagates envCatalogErr).2.2.2 (.http (some 500)) rfl

/-- C4: `getRepositoriesFromDockerHub` follows the `next` cursors and
returns the namespace-prefixed concatenation of all pages' results once a
page reports a null cursor; if any page fetch fails it returns the empty
list, never a partial one. -/
theorem C4_listRepositories_pagination (env : Env) :
    (∀ (front : List CatalogPage) (last : CatalogPage),
      (∀ p ∈ front, p.next = true) → last.next = false →
      env.catalogPages = (front ++ [last]).map .ok →
      getRepositoriesFromDockerHub env =
        (((front ++ [last]).map CatalogPage.results).flatten).map
          (fun n => DOCKER_HUB_NAMESPACE ++ "/" ++ n)) ∧
    (∀ (front : List CatalogPage) (s : Option Nat) (rest : List (HttpResp CatalogPage)),
      (∀ p ∈ front, p.next = true) →
      env.catalogPages = front.map .ok ++ .err s :: rest →
      getRepositoriesFromDockerHub env = []) := by
  constructor
  · intro front last hf hl henv
    unfold getRepositoriesFromDockerHub
    rw [henv, fetchCatalog_chain_ok front last hf hl]
  · intro front s rest hf henv
    unfold getRepositoriesFromDockerHub
    rw [henv, fetchCatalog_chain_err front s rest hf]

/-- C4 witness: a two-page catalog yields both pages' names prefixed; a
failing second page yields the empty list, not the first page alone. -/
theorem C4_listRepositories_pagination_witness :
    getRepositoriesFromDockerHub envCatalogOk =
      ["abdelrahmanelbadawy1/a", "abdelrahmanelbadawy1/b"] ∧
    getRepositoriesFromDockerHub envCatalogErr = [] := by
  constructor
  · have h := (C4_listRepositories_pagination envCatalogOk).1
      [⟨["a"], true⟩] ⟨["b"], false⟩ (by decide) rfl rfl
    rw [h]
    rfl
  · exact (C4_listRepositories_pagination envCatalogErr).2
      [⟨["a"], true⟩] (some 500) [] (by decide) rfl

/-- C5: `getManifest`'s fetch for a known tag attempts the request
without credentials first; a token is requested if and only if that
attempt fails with HTTP 401, in which case the request is retried exactly
once with the token as bearer credential and the retried response's
document is returned on success; otherwise no second manifest request is
made. -/
theorem C5_manifest_auth_policy (env : Env) (repo t : String) :
    (fetchManifest env repo t).2.head? = some (.manifestReq repo t none) ∧
    ((.tokenReq repo) ∈ (fetchManifest env repo t).2 ↔
      env.manifestResp repo t none = .err (some 401)) ∧
    (env.manifestResp repo t none ≠ .err (some 401) →
      ((fetchManifest env repo t).2.countP isManifestEv) = 1) ∧
    (∀ tok, env.manifestResp repo t none = .err (some 401) →
      (getDockerHubAuthToken env repo).1 = .ok tok →
      (fetchManifest env repo t).2 =
        [.manifestReq repo t none, .tokenReq repo, .manifestReq repo t (some tok)] ∧
      (∀ d, env.manifestResp repo t (some tok) = .ok d →
        (fetchManifest env repo t).1 = .ok d)) := by
  cases hm : env.manifestResp repo t none with
  | ok d =>
    simp [fetchManifest, hm, isManifestEv]
  | err s =>
    rcases s with _ | n
    · simp [fetchManifest, hm, isManifestEv]
    · by_cases h401 : n = 401
      · subst h401
        cases htr : env.tokenResp repo with
        | ok o =>
          cases o with
          | none =>
            simp [fetchManifest, hm, getDockerHubAuthToken, htr, isManifestEv]
          | some tk =>
            by_cases htk : tk = ""
            · subst htk
              simp [fetchManifest, hm, getDockerHubAuthToken, htr, isManifestEv]
            · cases hretry : env.manifestResp repo t (some tk) with
              | ok d2 =>
                simp [fetchManifest, hm, getDockerHubAuthToken, htr, htk, hretry,
                  isManifestEv]
              | err s2 =>
                simp [fetchManifest, hm, getDockerHubAuthToken, htr, htk, hretry,
                  isManifestEv]
        | err s2 =>
          simp [fetchManifest, hm, getDockerHubAuthToken, htr, isManifestEv]
      · by_cases h404 : n = 404
        · subst h404
          simp [fetchManifest, hm, getRepositoryTags, isManifestEv, h401]
        · simp [fetchManifest, hm, isManifestEv, h401, h404]

/-- C5 witness: a 401 on the unauthenticated attempt is followed by one
token request and exactly one authenticated retry, whose document is
returned. -/
theorem C5_manifest_auth_policy_witness :
    (fetchManifest envManifest401 "r" "latest").2 =
      [.manifestReq "r" "latest" none, .tokenReq "r",
        .manifestReq "r" "latest" (some "tok")] ∧
    (fetchManifest envManifest401 "r" "latest").1 =
      .ok (some ⟨some ⟨some "sha"⟩⟩) := by
  have h := (C5_manifest_auth_policy envManifest401 "r" "latest").2.2.2 "tok"
    rfl (by simp [getDockerHubAuthToken, envManifest401])
  exact ⟨h.1, h.2 _ rfl⟩

/-- C6: a 404 on the unauthenticated manifest request for a known tag is
a hard error, never a soft absence, and the error carries the missing tag
together with the repository's available tags. -/
theorem C6_manifest_404_hard_error (env : Env) (repo t : String)
    (h404 : env.manifestResp repo t none = .err (some 404)) :
    (fetchManifest env repo t).1 =
      .error (.tagNotFound t (getRepositoryTags env repo).1) ∧
    ∀ d, (fetchManifest env repo t).1 ≠ .ok d := by
  constructor
  · simp [fetchManifest, h404]
  · intro d
    simp [fetchManifest, h404]

/-- C6 witness: requesting the tag `v9` when the registry answers 404
throws an error naming `v9` and the available tags `["v1", "v2"]`. -/
theorem C6_manifest_404_hard_error_witness :
    (fetchManifest envManifest404 "r" "v9").1 =
      .error (.tagNotFound "v9" ["v1", "v2"]) := by
  exact (C6_manifest_404_hard_error envManifest404 "r" "v9" rfl).1

/-- C7: called without a tag, `getManifest` first resolves the tags;
with none it resolves `null` without any manifest request; otherwise it
delegates to the manifest fetch for `"latest"` when present among the
tags, else for the first tag in listing order. -/
theorem C7_default_tag_selection (env : Env) (repo : String) :
    getManifest env repo none = getManifestNoTag env repo ∧
    ((getRepositoryTags env repo).1 = [] →
      (getManifestNoTag env repo).1 = .ok none ∧
      ∀ r2 rt c, (ReqEvent.manifestReq r2 rt c) ∉ (getManifestNoTag env repo).2) ∧
    (∀ t0 rest, (getRepositoryTags env repo).1 = t0 :: rest →
      getManifestNoTag env repo =
        ((fetchManifest env repo
            (if (t0 :: rest).contains "latest" then "latest" else t0)).1,
          .tagsReq repo ::
            (fetchManifest env repo
              (if (t0 :: rest).contains "latest" then "latest" else t0)).2)) := by
  refine ⟨rfl, ?_, ?_⟩
  · intro hempty
    cases htr : env.tagsResp repo with
    | ok l =>
      have hl : l = [] := by simpa [getRepositoryTags, htr] using hempty
      subst hl
      simp [getManifestNoTag, getRepositoryTags, htr]
    | err s =>
      simp [getManifestNoTag, getRepositoryTags, htr]
  · intro t0 rest hcons
    cases htr : env.tagsResp repo with
    | ok l =>
      have hl : l = t0 :: rest := by simpa [getRepositoryTags, htr] using hcons
      subst hl
      simp [getManifestNoTag, getRepositoryTags, htr]
    | err s =>
      simp [getRepositoryTags, htr] at hcons

/-- C7 witness: with no tags, `getManifest` without a tag resolves `null`
and issues no manifest request; with tags `["v1", "latest"]` it fetches
the manifest of `"latest"`. -/
theorem C7_default_tag_selection_witness :
    (getManifest envTagsEmpty "r" none).1 = .ok none ∧
    getManifestNoTag envTagsLatest "r" =
      ((fetchManifest envTagsLatest "r" "latest").1,
        .tagsReq "r" :: (fetchManifest envTagsLatest "r" "latest").2) := by
  constructor
  · have h := C7_default_tag_selection envTagsEmpty "r"
    rw [h.1]
    exact (h.2.1 rfl).1
  · have h := (C7_default_tag_selection envTagsLatest "r").2.2 "v1" ["latest"] rfl
    simpa using h

/-- C1 counterexample: with info (name `"Nice"`, description `"Desc"`),
tags, and a manifest with a config digest all resolved, a failing
config-blob fetch throws, and the produced record is the minimal
"unavailable" one — not the RepositoryInfo-only fallback the claim
describes. -/
theorem C1_config_failure_counterexample :
    (getRepositoryInfo envConfigErr repoA).isSome = true ∧
    (getManifest envConfigErr repoA none).1 = .ok (some ⟨some ⟨some "sha"⟩⟩) ∧
    getConfig envConfigErr repoA "sha" = .error (.http (some 500)) ∧
    resolveOne envConfigErr repoA =
      some { name := repoA, location := ⟨repoA⟩,
             description := "Repository information unavailable.",
             pictureUrl := PLACEHOLDER_URL } ∧
    ¬ resolveOne envConfigErr repoA =
      some { name := jsOrS (some "Nice") repoA, location := ⟨repoA⟩,
             description := jsOrS (some "Desc") NO_DESCRIPTION,
             pictureUrl := PLACEHOLDER_URL } := by
  decide

/-- C1 amended: after a successful manifest fetch with a config digest, a
config-blob fetch that throws lands in the per-repository catch and
yields the minimal "unavailable" record (or omission when the raw name is
invalid); the RepositoryInfo-only fallback is produced only when
`getConfig` resolves with an absent document. -/
theorem C1_config_failure_fallback (env : Env) (n : String) (info : RepositoryInfo)
    (m : ManifestDoc) (cfg : ConfigRef) (d : String)
    (hinfo : getRepositoryInfo env n = some info)
    (htags : info.available_tags ≠ [])
    (hm : (getManifest env n none).1 = .ok (some m))
    (hcfg : m.config = some cfg)
    (hd : cfg.digest = some d)
    (hne : d ≠ "") :
    (∀ e, getConfig env n d = .error e →
      resolveOne env n =
        match AppLocation.create n with
        | .ok loc => some (minimalApp n loc)
        | .error _ => none) ∧
    (getConfig env n d = .ok none → ∀ loc, AppLocation.create n = .ok loc →
      resolveOne env n =
        some { name := jsOrS info.name n, location := loc,
               description := jsOrS info.description NO_DESCRIPTION,
               pictureUrl := PLACEHOLDER_URL }) := by
  have hstep := resolveSteps_config_step env n info m cfg d hinfo htags hm hcfg hd hne
  constructor
  · intro e he
    unfold resolveOne perRepo
    rw [hstep, he]
    cases AppLocation.create n with
    | ok loc => rfl
    | error e2 => rfl
  · intro he loc hloc
    unfold resolveOne perRepo
    rw [hstep, he]
    simp [basicApp, hloc]

/-- C1 witness: a thrown config fetch yields the minimal record; an
absent config document yields the RepositoryInfo-only fallback. -/
theorem C1_config_failure_fallback_witness :
    resolveOne envConfigErr repoA = some (minimalApp repoA ⟨repoA⟩) ∧
    resolveOne envConfigAbsent repoA =
      some { name := "Nice", location := ⟨repoA⟩,
             description := "Desc", pictureUrl := PLACEHOLDER_URL } := by
  constructor
  · have h := (C1_config_failure_fallback envConfigErr repoA
      ⟨some "Nice", some "Desc", none, none, none, none, true, ["latest"]⟩
      ⟨some ⟨some "sha"⟩⟩ ⟨some "sha"⟩ "sha" rfl (by decide) rfl rfl rfl
      (by decide)).1 (.http (some 500)) rfl
    rw [h]
    decide
  · have h := (C1_config_failure_fallback envConfigAbsent repoA
      ⟨some "Nice", some "Desc", none, none, none, none, true, ["latest"]⟩
      ⟨some ⟨some "sha"⟩⟩ ⟨some "sha"⟩ "sha" rfl (by decide) rfl rfl rfl
      (by decide)).2 rfl ⟨repoA⟩ (by decide)
    rw [h]
    decide

/-- C2 counterexample: a repository with zero tags but a non-empty
RepositoryInfo description produces a record whose description is that
description, not the configured placeholder the claim requires. -/
theorem C2_no_tags_counterexample :
    (getRepositoryInfo envNoTags repoA).map RepositoryInfo.available_tags = some [] ∧
    (resolveOne envNoTags repoA).map App.description = some "Custom description" ∧
    ("Custom description" : String) ≠ NO_DESCRIPTION := by
  decide

/-- C2 amended: with zero tags reported, the record's pictureUrl is the
placeholder, its description is RepositoryInfo's description or, failing
that, the placeholder, and its name is RepositoryInfo's name or, failing
that, the raw repository name. -/
theorem C2_no_tags_record (env : Env) (n : String) (info : RepositoryInfo)
    (loc : AppLocation)
    (hinfo : getRepositoryInfo env n = some info)
    (htags : info.available_tags = [])
    (hloc : AppLocation.create n = .ok loc) :
    resolveOne env n =
      some { name := jsOrS info.name n, location := loc,
             description := jsOrS info.description NO_DESCRIPTION,
             pictureUrl := PLACEHOLDER_URL } := by
  unfold resolveOne perRepo
  rw [resolveSteps_no_tags env n info hinfo htags]
  simp [basicApp, hloc]

/-- C2 witness: the zero-tags record of `envNoTags` carries the info
name, the info description, and the placeholder picture. -/
theorem C2_no_tags_record_witness :
    resolveOne envNoTags repoA =
      some { name := "Nice", location := ⟨repoA⟩,
             description := "Custom description",
             pictureUrl := PLACEHOLDER_URL } := by
  have h := C2_no_tags_record envNoTags repoA
    ⟨some "Nice", some "Custom description", none, none, none, none, false, []⟩
    ⟨repoA⟩ rfl rfl rfl
  rw [h]
  decide

/-- C8 counterexample: with the title label present but mapped to the
empty string, the record's name is RepositoryInfo's name `"X"`, not the
label's value, although the label is present. -/
theorem C8_label_chain_counterexample :
    getConfig envTitleEmpty repoA "sha" =
      .ok (some ⟨some ⟨some [("org.opencontainers.image.title", "")]⟩⟩) ∧
    jsLookup [("org.opencontainers.image.title", "")]
      "org.opencontainers.image.title" = some "" ∧
    (resolveOne envTitleEmpty repoA).map App.name = some "X" ∧
    (some "X" : Option String) ≠ some "" := by
  decide

/-- C8 amended: through the full chain, the record's name is the title
label when present with a non-empty value, else RepositoryInfo's name,
else the raw name; description and pictureUrl follow the analogous
chains; and the location always wraps the raw repository name. -/
theorem C8_label_chain (env : Env) (n : String) (info : RepositoryInfo)
    (m : ManifestDoc) (cfg : ConfigRef) (d : String) (config : ConfigBlob)
    (labels : List (String × String)) (loc : AppLocation)
    (hinfo : getRepositoryInfo env n = some info)
    (htags : info.available_tags ≠ [])
    (hm : (getManifest env n none).1 = .ok (some m))
    (hcfg : m.config = some cfg)
    (hd : cfg.digest = some d)
    (hne : d ≠ "")
    (hconf : getConfig env n d = .ok (some config))
    (hlab : (config.config.bind (fun i => i.Labels)).getD [] = labels)
    (hloc : AppLocation.create n = .ok loc) :
    (resolveOne env n).map App.location = some ⟨n⟩ ∧
    (∀ t, jsLookup labels "org.opencontainers.image.title" = some t → t ≠ "" →
      (resolveOne env n).map App.name = some t) ∧
    ((jsLookup labels "org.opencontainers.image.title" = none ∨
      jsLookup labels "org.opencontainers.image.title" = some "") →
      (resolveOne env n).map App.name = some (jsOrS info.name n)) ∧
    (∀ s, jsLookup labels "org.opencontainers.image.description" = some s → s ≠ "" →
      (resolveOne env n).map App.description = some s) ∧
    ((jsLookup labels "org.opencontainers.image.description" = none ∨
      jsLookup labels "org.opencontainers.image.description" = some "") →
      (resolveOne env n).map App.description =
        some (jsOrS info.description NO_DESCRIPTION)) ∧
    (∀ u, jsLookup labels "com.app-store.picture-url" = some u → u ≠ "" →
      (resolveOne env n).map App.pictureUrl = some u) ∧
    ((jsLookup labels "com.app-store.picture-url" = none ∨
      jsLookup labels "com.app-store.picture-url" = some "") →
      (resolveOne env n).map App.pictureUrl = some PLACEHOLDER_URL) := by
  have hstep := resolveSteps_config_step env n info m cfg d hinfo htags hm hcfg hd hne
  have hres : resolveOne env n = some
      { name := jsOrS (jsLookup labels "org.opencontainers.image.title")
          (jsOrS info.name n),
        location := loc,
        description := jsOrS (jsLookup labels "org.opencontainers.image.description")
          (jsOrS info.description NO_DESCRIPTION),
        pictureUrl := jsOrS (jsLookup labels "com.app-store.picture-url")
          PLACEHOLDER_URL } := by
    unfold resolveOne perRepo
    rw [hstep, hconf, hloc]
    simp only [hlab]
  have hlocv : loc = ⟨n⟩ := create_eq_ok n loc hloc
  refine ⟨by rw [hres, hlocv]; rfl, ?_, ?_, ?_, ?_, ?_, ?_⟩
  · intro t ht hne2
    rw [hres, ht]
    simp [jsOrS, hne2]
  · intro ht
    rw [hres]
    rcases ht with ht | ht <;> rw [ht] <;> simp [jsOrS]
  · intro s hs hne2
    rw [hres, hs]
    simp [jsOrS, hne2]
  · intro hs
    rw [hres]
    rcases hs with hs | hs <;> rw [hs] <;> simp [jsOrS]
  · intro u hu hne2
    rw [hres, hu]
    simp [jsOrS, hne2]
  · intro hu
    rw [hres]
    rcases hu with hu | hu <;> rw [hu] <;> simp [jsOrS]

/-- C8 witness: with all three labels set and non-empty, the record takes
its name, description and picture from them, while the location wraps
the raw repository name. -/
theorem C8_label_chain_witness :
    (resolveOne envFullChain repoA).map App.location = some ⟨repoA⟩ ∧
    (resolveOne envFullChain repoA).map App.name = some "Title" ∧
    (resolveOne envFullChain repoA).map App.description = some "Label description" ∧
    (resolveOne envFullChain repoA).map App.pictureUrl =
      some "https://pics.example/app.png" := by
  have h := C8_label_chain envFullChain repoA
    ⟨some "Nice", some "Desc", none, none, none, none, true, ["latest"]⟩
    ⟨some ⟨some "sha"⟩⟩ ⟨some "sha"⟩ "sha"
    ⟨some ⟨some
      [("org.opencontainers.image.title", "Title"),
       ("org.opencontainers.image.description", "Label description"),
       ("com.app-store.picture-url", "https://pics.example/app.png")]⟩⟩
    [("org.opencontainers.image.title", "Title"),
     ("org.opencontainers.image.description", "Label description"),
     ("com.app-store.picture-url", "https://pics.example/app.png")]
    ⟨repoA⟩ rfl (by decide) rfl rfl rfl (by decide) rfl rfl (by decide)
  exact ⟨h.1, h.2.1 "Title" (by decide) (by decide),
    h.2.2.2.1 "Label description" (by decide) (by decide),
    h.2.2.2.2.2.1 "https://pics.example/app.png" (by decide) (by decide)⟩

/-- C9: any exception in a repository's resolution steps is caught at the
repository boundary: the minimal record is produced when the raw name is
valid, the repository is omitted only when even that construction throws;
the batch is the per-repository resolution folded over the listing, and a
repository's resolution depends only on its own endpoints. -/
theorem C9_exception_isolation (env : Env) (n : String) (e : RegError)
    (hsteps : resolveSteps env n = .error e) :
    (∀ loc, AppLocation.create n = .ok loc →
      resolveOne env n = some (minimalApp n loc)) ∧
    (∀ e2, AppLocation.create n = .error e2 → resolveOne env n = none) ∧
    findAll env = (getRepositoriesFromDockerHub env).filterMap (resolveOne env) ∧
    (∀ (env2 : Env) (m : String), agreeOn env env2 m →
      resolveOne env2 m = resolveOne env m) := by
  refine ⟨?_, ?_, findAll_eq_filterMap env,
    fun env2 m hagree => (resolveOne_congr env env2 m hagree).symm⟩
  · intro loc hloc
    unfold resolveOne perRepo
    rw [hsteps, hloc]
  · intro e2 hloc
    unfold resolveOne perRepo
    rw [hsteps, hloc]

/-- C9 witness: a repository whose manifest fetch throws a server error
still yields the minimal record built from its raw name. -/
theorem C9_exception_isolation_witness :
    resolveOne envManifestServerErr repoA =
      some (minimalApp repoA ⟨repoA⟩) := by
  exact (C9_exception_isolation envManifestServerErr repoA (.http (some 500))
    rfl).1 ⟨repoA⟩ rfl

/-- C10 counterexample: names in the listing are namespace-prefixed and
never blank, but a repository whose info fetch misses is omitted, so
`findAll` does not yield one record for every listed name. -/
theorem C10_counterexample :
    getRepositoriesFromDockerHub envInfoAbsent = [repoA] ∧
    findAll envInfoAbsent = [] ∧
    (findAll envInfoAbsent).length ≠
      (getRepositoriesFromDockerHub envInfoAbsent).length := by
  decide

/-- C10 amended: every listed name is namespace-prefixed and non-blank,
`AppLocation.create` accepts it (so the null-after-failed-minimal-record
branch is unreachable and omission happens exactly when the repository
info is absent), and when every listed repository's info is present the
batch yields exactly one record per listed name. -/
theorem C10_listing_names_wellformed (env : Env) :
    (∀ n ∈ getRepositoriesFromDockerHub env,
      (∃ r, n = DOCKER_HUB_NAMESPACE ++ "/" ++ r) ∧
      n ≠ "" ∧
      AppLocation.create n = .ok ⟨n⟩ ∧
      (resolveOne env n = none ↔ getRepositoryInfo env n = none)) ∧
    ((∀ n ∈ getRepositoriesFromDockerHub env, (getRepositoryInfo env n).isSome) →
      (findAll env).length = (getRepositoriesFromDockerHub env).length) := by
  constructor
  · intro n hn
    obtain ⟨r, hr⟩ := mem_repositories_form env n hn
    subst hr
    refine ⟨⟨r, rfl⟩, ?_, create_namespaced r,
      resolveOne_none_iff env _ _ (create_namespaced r)⟩
    intro h
    have hd := congrArg String.data h
    simp only [show ((DOCKER_HUB_NAMESPACE ++ "/" ++ r).data =
      DOCKER_HUB_NAMESPACE.data ++ "/".data ++ r.data) from rfl] at hd
    simp [DOCKER_HUB_NAMESPACE] at hd
  · intro hall
    rw [findAll_eq_filterMap]
    apply length_filterMap_of_isSome
    intro n hn
    obtain ⟨r, hr⟩ := mem_repositories_form env n hn
    cases hro : resolveOne env n with
    | some a => rfl
    | none =>
      have hnone := (resolveOne_none_iff env n _
        (hr ▸ create_namespaced r)).1 hro
      have h2 := hall n hn
      rw [hnone] at h2
      simp at h2

/-- C10 witness: with every repository's info present, the batch has
exactly one record per listed name, and the listed name is
namespace-prefixed. -/
theorem C10_listing_names_wellformed_witness :
    (∃ r, repoA = DOCKER_HUB_NAMESPACE ++ "/" ++ r) ∧
    (findAll envFullChain).length =
      (getRepositoriesFromDockerHub envFullChain).length := by
  have h := C10_listing_names_wellformed envFullChain
  have hmem : repoA ∈ getRepositoriesFromDockerHub envFullChain := by decide
  exact ⟨(h.1 repoA hmem).1, h.2 (by decide)⟩

end DockerAppStore
